import Mathlib

/-!
# Verification of the warp-drive normalizer spike

Shallow embedding of the normalization engine (`normalizeResource` and its
helpers) of the repository, together with theorems settling the frozen
claims about its specification.

JavaScript runtime values are modelled by the inductive `JVal`; in-place
mutation in the source is rendered as explicit state passing; code that can
throw is rendered in `Except String`.  The two external dependencies of the
module — the pluralization utility and the `jsonapi-fractal` `serialize`
function — are parameters of the embedded definitions; concrete models of
both, written from the spec's contracts for them, are provided for witnesses.
-/

set_option maxRecDepth 4000

namespace WarpDrive

/-- A JavaScript runtime value: string, number, boolean, null/undefined,
object (ordered field list) or array. -/
inductive JVal where
  | vstr (s : String)
  | vnum (n : Int)
  | vbool (b : Bool)
  | vnull
  | vobj (fields : List (String × JVal))
  | varr (elems : List JVal)
deriving Repr, Inhabited

/-- JavaScript truthiness of a value. -/
def truthy : JVal → Bool
  | .vstr s => s ≠ ""
  | .vnum n => n ≠ 0
  | .vbool b => b
  | .vnull => false
  | .vobj _ => true
  | .varr _ => true

/-- `isPrimitive` from the source: `typeof value === 'string' || typeof value === 'number'`. -/
def isPrimitive : JVal → Bool
  | .vstr _ => true
  | .vnum _ => true
  | _ => false

/-- `isObject` from the source: truthy, of object type, and not an array. -/
def isObject : JVal → Bool
  | .vobj _ => true
  | _ => false

/-- JavaScript property read `v[k]`: the first field named `k` of an object,
`undefined` (here `vnull`) otherwise. -/
def getProp (v : JVal) (k : String) : JVal :=
  match v with
  | .vobj fields =>
    match fields.find? (fun p => p.1 == k) with
    | some p => p.2
    | none => .vnull
  | _ => .vnull

/-- Update the first field named `k`, or append the field when absent
(JavaScript property assignment / object-literal override semantics). -/
def setFields : List (String × JVal) → String → JVal → List (String × JVal)
  | [], k, v => [(k, v)]
  | (k1, v1) :: rest, k, v =>
    if k1 == k then (k, v) :: rest else (k1, v1) :: setFields rest k v

/-- JavaScript property assignment `v[k] = x` on an object (no-op otherwise). -/
def setProp (v : JVal) (k : String) (x : JVal) : JVal :=
  match v with
  | .vobj fields => .vobj (setFields fields k x)
  | _ => v

mutual

/-- JavaScript `String(v)` coercion (arrays join their elements' strings with commas). -/
def jsToString : JVal → String
  | .vstr s => s
  | .vnum n => toString n
  | .vbool b => if b then "true" else "false"
  | .vnull => "undefined"
  | .vobj _ => "[object Object]"
  | .varr es => String.intercalate "," (jsToStringList es)

/-- Stringify each element of an array, for `jsToString`. -/
def jsToStringList : List JVal → List String
  | [] => []
  | e :: es => jsToString e :: jsToStringList es

end

/-- JavaScript `a || b` on values. -/
def jsOr (a b : JVal) : JVal := if truthy a then a else b

/-- A schema field declaration, e.g. `{ kind: 'field', name: 'title' }`. -/
structure SchemaField where
  kind : String
  name : String
deriving Repr, DecidableEq

/-- The schema registry: the list of known type names
(`[...schema._schemas.keys()]`) and the field lookup `schema.fields({ type })`;
`none` models the lookup throwing (unknown type or malformed registry). -/
structure Schema where
  knownTypes : List String
  fields : String → Option (List SchemaField)

/-- The request context: `{ store: { schema }, url }`. -/
structure RequestCtx where
  schema : Schema
  url : String

/-- `detectResourceType` from the source: the first known type whose singular
or pluralized key is truthy in the payload, `'unknown'` otherwise (the JS
`find(...) || 'unknown'` also maps an empty-string type name to `'unknown'`). -/
def detectResourceType (pl : String → String) (knownTypes : List String) (data : JVal) : String :=
  match knownTypes.find? (fun type => truthy (getProp data type) || truthy (getProp data (pl type))) with
  | some t => if t = "" then "unknown" else t
  | none => "unknown"

/-- `isCollectionResponse` from the source:
`knownTypes.some((type) => data[pluralize(type)])` — note: a truthiness test,
with no `Array.isArray` check. -/
def isCollectionResponse (pl : String → String) (knownTypes : List String) (data : JVal) : Bool :=
  knownTypes.any (fun type => truthy (getProp data (pl type)))

/-- `extractResourceId` from the source: `String(resource)` for primitives,
otherwise the truthiness chain `resource.id || resource.slug ||
resource.username || resource.name`.  Reading a property of
`undefined`/`null` throws, modelled as `Except.error`. -/
def extractResourceId (resource : JVal) : Except String JVal :=
  if isPrimitive resource then .ok (.vstr (jsToString resource))
  else match resource with
  | .vnull => .error "TypeError: cannot read properties of undefined"
  | r => .ok (jsOr (getProp r "id") (jsOr (getProp r "slug") (jsOr (getProp r "username") (getProp r "name"))))

/-- The property-name choice made inside `normalizeResourceData`: the first
declared field (in schema declaration order) of kind `'field'` whose name is
in `['name', 'title', 'label', 'text', 'value']`, defaulting to `'value'`
when the schema is absent, the lookup throws, or no field matches. -/
def pickPropertyName (schema : Option Schema) (type : String) : String :=
  match schema with
  | none => "value"
  | some sch =>
    match sch.fields type with
    | none => "value"
    | some fields =>
      match fields.find? (fun field => field.kind == "field" &&
          ["name", "title", "label", "text", "value"].contains field.name) with
      | some nameField => nameField.name
      | none => "value"

/-- `normalizeResourceData` from the source: when the pluralized key holds an
array with at least one primitive element, replace every element with
`{ id: String(item), [propertyName]: item }` (in-place mutation rendered as
returning the updated payload). -/
def normalizeResourceData (pl : String → String) (data : JVal) (type : String) (schema : Option Schema) : JVal :=
  let pluralKey := pl type
  match getProp data pluralKey with
  | .varr resourceArray =>
    if resourceArray.any isPrimitive then
      let propertyName := pickPropertyName schema type
      setProp data pluralKey (.varr (resourceArray.map (fun item =>
        .vobj [("id", .vstr (jsToString item)), (propertyName, item)])))
    else data
  | _ => data

/-- `getSchemaRelationships` from the source: the names of the declared
`belongsTo`/`hasMany` fields; a throwing lookup is caught and yields `[]`. -/
def getSchemaRelationships (schema : Schema) (type : String) : List String :=
  match schema.fields type with
  | none => []
  | some fields =>
    (fields.filter (fun field => ["belongsTo", "hasMany"].contains field.kind)).map (fun field => field.name)

/-- The per-item body of `ensureRelationshipIds`: objects lacking a truthy
`id` get one via `extractResourceId` (which cannot throw on an object). -/
def backfillItem (item : JVal) : JVal :=
  if isObject item && !truthy (getProp item "id") then
    match extractResourceId item with
    | .ok v => setProp item "id" v
    | .error _ => item
  else item

/-- `ensureRelationshipIds` from the source: for each relationship field
present (truthy) on the resource, back-fill `id` on each object item of its
value (singular or array). -/
def ensureRelationshipIds (resource : JVal) (relationships : List String) : JVal :=
  relationships.foldl (fun res relName =>
    let relData := getProp res relName
    if !truthy relData then res
    else match relData with
      | .varr items => setProp res relName (.varr (items.map backfillItem))
      | item => setProp res relName (backfillItem item)) resource

/-- A resource linkage reference `{ type, id }` inside relationship data. -/
structure ResourceRef where
  type : String
  id : String
deriving Repr, DecidableEq

/-- Relationship `data`: a single linkage or an array of linkages. -/
inductive RelDataVal where
  | one (ref : ResourceRef)
  | many (refs : List ResourceRef)
deriving Repr, DecidableEq

/-- The `links` object of a relationship. -/
structure RelLinks where
  related : String
  self : String
deriving Repr, DecidableEq

/-- A relationship object as produced by the serializer. -/
structure RelationshipObj where
  data : Option RelDataVal := none
  links : Option RelLinks := none
deriving Repr, DecidableEq

/-- A canonical resource object `{ type, id, attributes, relationships? }`. -/
structure ResourceObject where
  type : String
  id : String
  attributes : List (String × JVal) := []
  relationships : Option (List (String × RelationshipObj)) := none
deriving Repr

/-- The fragment returned by the external `serialize` utility:
`{ data, included? }`. -/
structure SerFragment where
  data : ResourceObject
  included : Option (List ResourceObject) := none
deriving Repr

/-- Primary data of a normalized result: a resource object, or the array
built by the collection branch from the sub-results' `data`. -/
inductive PrimaryData where
  | res (robj : ResourceObject)
  | coll (items : List PrimaryData)
deriving Repr

/-- A normalized result `{ data, included? }`. -/
structure NormResult where
  data : PrimaryData
  included : Option (List ResourceObject) := none
deriving Repr

/-- The type of the external `jsonapi-fractal` `serialize` dependency:
`serialize(resourceWithId, type, { relationships, included })`. -/
abbrev SerializeFn := JVal → String → Option (List String) → Bool → SerFragment

/-- `addJsonApiLinks` from the source: no-op when `relationships` is absent,
otherwise sets `links.related`/`links.self` on every relationship entry. -/
def addJsonApiLinks (relationships : Option (List (String × RelationshipObj)))
    (baseUrl : String) (resourceId : String) : Option (List (String × RelationshipObj)) :=
  match relationships with
  | none => none
  | some entries => some (entries.map (fun entry =>
      (entry.1, { entry.2 with links := some {
        related := baseUrl ++ "/" ++ resourceId ++ "/" ++ entry.1,
        self := baseUrl ++ "/" ++ resourceId ++ "/relationships/" ++ entry.1 } })))

/-- JavaScript map indexing `m[k]` on the relationship type map. -/
def jsLookup (m : List (String × String)) (k : String) : Option String :=
  match m.find? (fun p => p.1 == k) with
  | some p => some p.2
  | none => none

/-- JavaScript `m[k] || fallback` on strings (an empty string is falsy). -/
def jsOrString (a : Option String) (b : String) : String :=
  match a with
  | some s => if s = "" then b else s
  | none => b

/-- Force the `type` of every linkage in relationship data to `targetType`
(the `dataItems.forEach((item) => (item.type = targetType))` of `mapTypes`). -/
def forceRelTypes (d : RelDataVal) (targetType : String) : RelDataVal :=
  match d with
  | .one ref => .one { ref with type := targetType }
  | .many refs => .many (refs.map (fun ref => { ref with type := targetType }))

/-- One entry of the relationships-object branch of `mapTypes`: when the
relationship name is mapped to a truthy target type and the relationship has
truthy `data`, force every linkage's type; otherwise leave the entry alone. -/
def mapTypesRelStep (relationshipTypeMap : List (String × String))
    (entry : String × RelationshipObj) : String × RelationshipObj :=
  match jsLookup relationshipTypeMap entry.1 with
  | some targetType =>
    if targetType ≠ "" then
      match entry.2.data with
      | some d => (entry.1, { entry.2 with data := some (forceRelTypes d targetType) })
      | none => entry
    else entry
  | none => entry

/-- The relationships-object branch of `mapTypes` (the source function is
polymorphic over the two shapes it is called on; the call on
`result.data.relationships` lands here).  `undefined` passes through. -/
def mapTypesRels (data : Option (List (String × RelationshipObj)))
    (relationshipTypeMap : List (String × String)) : Option (List (String × RelationshipObj)) :=
  match data with
  | none => none
  | some entries => some (entries.map (mapTypesRelStep relationshipTypeMap))

/-- The array branch of `mapTypes` (the call on `result.included` lands
here): `undefined` passes through, an empty array becomes `undefined`, and
otherwise each item's `type` is rewritten via
`relationshipTypeMap[item.type] || item.type`. -/
def mapTypesIncluded (data : Option (List ResourceObject))
    (relationshipTypeMap : List (String × String)) : Option (List ResourceObject) :=
  match data with
  | none => none
  | some items =>
    if items.isEmpty then none
    else some (items.map (fun item =>
      { item with type := jsOrString (jsLookup relationshipTypeMap item.type) item.type }))

/-- The field list produced by a JavaScript object spread `{ ...resource }`
(objects spread their fields, strings and arrays their indexed entries,
other primitives nothing). -/
def spreadFields : JVal → List (String × JVal)
  | .vobj fields => fields
  | .vstr s => s.toList.enum.map (fun p => (toString p.1, JVal.vstr (String.mk [p.2])))
  | .varr es => es.enum.map (fun p => (toString p.1, p.2))
  | _ => []

/-- `serializeResource` from the source: extract the id, back-fill
relationship ids when the type has relationships, then call the external
`serialize` on `{ ...resource, id }`. -/
def serializeResource (serializeFn : SerializeFn) (resource : JVal) (type : String)
    (relationships : List String) (hasRelationships : Bool) : Except String SerFragment :=
  match extractResourceId resource with
  | .error e => .error e
  | .ok id =>
    let resource := if hasRelationships then ensureRelationshipIds resource relationships else resource
    .ok (serializeFn (.vobj (setFields (spreadFields resource) "id" id)) type
      (if hasRelationships then some relationships else none) hasRelationships)

/-- JavaScript `Array.prototype.map` with a callback that can throw: the
first exception propagates, as in the source's collection branch. -/
def mapExcept (f : α → Except String β) : List α → Except String (List β)
  | [] => .ok []
  | a :: as =>
    match f a with
    | .error e => .error e
    | .ok b =>
      match mapExcept f as with
      | .error e => .error e
      | .ok bs => .ok (b :: bs)

/-- `normalizeResourceRecursive` from the source.  The JavaScript recursion
is unbounded; `fuel` makes the embedding total (`fuel = 0` reports
exhaustion, and fuel-independence for sufficient fuel is proved below). -/
def normalizeResourceRecursive (serializeFn : SerializeFn) (pl : String → String) :
    Nat → JVal → String → List String → Bool → String → List (String × String) →
    Except String NormResult
  | 0, _, _, _, _, _, _ => .error "fuel exhausted"
  | fuel + 1, document, type, relationships, hasRelationships, url, relationshipTypeMap =>
    if isCollectionResponse pl [type] document then
      let pluralType := pl type
      match getProp document pluralType with
      | .varr items =>
        match mapExcept (fun resource =>
            normalizeResourceRecursive serializeFn pl fuel (.vobj [(type, resource)]) type
              relationships hasRelationships url relationshipTypeMap) items with
        | .error e => .error e
        | .ok resources =>
          .ok { data := .coll (resources.map (fun r => r.data)),
                included := if hasRelationships then
                    some (List.flatten (resources.map (fun r => r.included.getD []))) else none }
      | _ => .error "TypeError: document[pluralType].map is not a function"
    else
      let resource := getProp document type
      match serializeResource serializeFn resource type relationships hasRelationships with
      | .error e => .error e
      | .ok result =>
        if hasRelationships then
          let withLinks := addJsonApiLinks result.data.relationships url result.data.id
          .ok { data := .res { result.data with
                  relationships := mapTypesRels withLinks relationshipTypeMap },
                included := mapTypesIncluded result.included relationshipTypeMap }
        else
          .ok { data := .res result.data, included := result.included }

/-- `normalizeResource` from the source: the top-level entry point. -/
def normalizeResource (serializeFn : SerializeFn) (pl : String → String) (fuel : Nat)
    (item : JVal) (request : RequestCtx) (relationshipTypeMap : List (String × String)) :
    Except String NormResult :=
  let schema := request.schema
  let url := request.url
  let knownTypes := schema.knownTypes
  let type := detectResourceType pl knownTypes item
  let document := normalizeResourceData pl item type (some schema)
  let relationships := getSchemaRelationships schema type
  let hasRelationships := decide (0 < relationships.length)
  normalizeResourceRecursive serializeFn pl fuel document type relationships hasRelationships
    url relationshipTypeMap

/-- Modelled from the spec: the pluralization utility
(`@warp-drive/utilities/string`, not part of this repository).  The spec's
contract (§6): a pure, deterministic English heuristic pluralization,
e.g. `tag → tags`, `category → categories`. -/
def pluralizeModel (s : String) : String :=
  match s.data.reverse with
  | 'y' :: _ => String.mk s.data.dropLast ++ "ies"
  | 's' :: _ => s ++ "es"
  | 'x' :: _ => s ++ "es"
  | 'h' :: 'c' :: _ => s ++ "es"
  | 'h' :: 's' :: _ => s ++ "es"
  | _ => s ++ "s"

/-- Modelled from the spec: the inverse heuristic used by the external
serializer when guessing a resource type from a relationship property name
("the singular form of its property name", spec §8.3). -/
def singularizeModel (s : String) : String :=
  match s.data.reverse with
  | 's' :: 'e' :: 'i' :: rest => String.mk (('y' :: rest).reverse)
  | 's' :: 's' :: _ => s
  | 's' :: rest => String.mk rest.reverse
  | _ => s

/-- A linkage reference built by the modelled serializer for one related
item: the type is guessed from the relationship property name, the id is the
item's (back-filled) `id`, or the item itself for primitives. -/
def refOf (relName : String) (item : JVal) : ResourceRef :=
  { type := singularizeModel relName,
    id := if isPrimitive item then jsToString item else jsToString (getProp item "id") }

/-- An included resource built by the modelled serializer from one embedded
related object (non-objects contribute nothing). -/
def includedOf (relName : String) (item : JVal) : Option ResourceObject :=
  match item with
  | .vobj fields => some
      { type := singularizeModel relName,
        id := jsToString (getProp (.vobj fields) "id"),
        attributes := fields.filter (fun p => p.1 != "id"),
        relationships := none }
  | _ => none

/-- Modelled from the spec: the external `jsonapi-fractal` `serialize`
utility (a black-box npm dependency, not part of this repository).  Per the
spec's contract (§4.4, §6): builds `{ data: { type, id, attributes,
relationships? }, included? }`; resource types of relationship linkages and
included resources are guessed from the relationship property name; types
serialized without relationships carry no `relationships` key and no
`included` array. -/
def serializeModel : SerializeFn := fun resource type relationships includeFlag =>
  let relNames := relationships.getD []
  let fields := match resource with | .vobj fs => fs | _ => []
  let attributes := fields.filter (fun p => p.1 != "id" && !(relNames.contains p.1))
  let relEntries := relNames.filterMap (fun relName =>
    match getProp resource relName with
    | .vnull => none
    | .varr items => some (relName,
        ({ data := some (.many (items.map (refOf relName))) } : RelationshipObj))
    | item => some (relName, ({ data := some (.one (refOf relName item)) } : RelationshipObj)))
  let includedList := List.flatten (relNames.map (fun relName =>
    match getProp resource relName with
    | .varr items => items.filterMap (includedOf relName)
    | item => (includedOf relName item).toList))
  { data := { type := type, id := jsToString (getProp resource "id"),
              attributes := attributes,
              relationships := if relationships.isSome then some relEntries else none },
    included := if includeFlag then some includedList else none }

/-- The fields of `profileSchema` declared in the repository's schema file. -/
def profileSchemaFields : List SchemaField :=
  [⟨"field", "username"⟩, ⟨"field", "bio"⟩, ⟨"field", "image"⟩, ⟨"field", "following"⟩]

/-- The fields of `tagSchema` declared in the repository's schema file. -/
def tagSchemaFields : List SchemaField := [⟨"field", "name"⟩]

/-- The fields of `userSchema` declared in the repository's schema file. -/
def userSchemaFields : List SchemaField :=
  [⟨"field", "username"⟩, ⟨"field", "bio"⟩, ⟨"field", "image"⟩, ⟨"field", "following"⟩]

/-- The fields of `articleSchema` declared in the repository's schema file
(including the `belongsTo author` relationship). -/
def articleSchemaFields : List SchemaField :=
  [⟨"field", "body"⟩, ⟨"field", "description"⟩, ⟨"field", "favorited"⟩,
   ⟨"field", "favoritesCount"⟩, ⟨"field", "slug"⟩, ⟨"field", "title"⟩,
   ⟨"field", "tagList"⟩, ⟨"belongsTo", "author"⟩, ⟨"field", "updatedAt"⟩,
   ⟨"field", "createdAt"⟩]

/-- The schema registry assembled from the four schemas the repository's
store registers — `articleSchema`, `userSchema`, `profileSchema`,
`tagSchema`, in that insertion order — so `knownTypes` is what
`[...schema._schemas.keys()]` yields. -/
def appSchema : Schema where
  knownTypes := ["article", "user", "profile", "tag"]
  fields := fun type =>
    if type = "article" then some articleSchemaFields
    else if type = "user" then some userSchemaFields
    else if type = "profile" then some profileSchemaFields
    else if type = "tag" then some tagSchemaFields
    else none

/-- The list of linkage references held by relationship data (one for a
singular linkage, all of them for a plural one). -/
def refsOf : RelDataVal → List ResourceRef
  | .one ref => [ref]
  | .many refs => refs

/-- Concrete single-resource payload used to witness the type-map claim:
the spec §8 example `{ article: { title: 'X', author: { username: 'jd' } } }`. -/
def c3Doc : JVal :=
  .vobj [("article", .vobj [("title", .vstr "X"), ("author", .vobj [("username", .vstr "jd")])])]

/-- The fragment `serializeResource` produces on `c3Doc`'s resource (author id
back-filled from `username`, relationship type guessed from the property name). -/
def c3Base : SerFragment :=
  { data := { type := "article", id := "undefined",
              attributes := [("title", .vstr "X")],
              relationships := some [("author",
                { data := some (.one { type := "author", id := "jd" }), links := none })] },
    included := some [{ type := "author", id := "jd",
                        attributes := [("username", .vstr "jd")], relationships := none }] }

/-- A registry whose `thing` type declares `title` before `name`, to separate
declaration order from the spec's preference order. -/
def c4Schema : Schema where
  knownTypes := ["thing"]
  fields := fun type =>
    if type = "thing" then some [⟨"field", "title"⟩, ⟨"field", "name"⟩] else none

/-- A registry whose field lookup throws for every type. -/
def c6Schema : Schema where
  knownTypes := []
  fields := fun _ => none

/-- Two comment resources sharing one author, used to witness the collection
claims (the duplicated author shows `included` is not deduplicated). -/
def c7Elems : List JVal :=
  [.vobj [("id", .vstr "c1"), ("author", .vobj [("id", .vstr "u1")])],
   .vobj [("id", .vstr "c2"), ("author", .vobj [("id", .vstr "u1")])]]

/-- The results of the single-resource path on each element of `c7Elems`. -/
def c7Sub : List NormResult :=
  [{ data := .res
       { type := "comment", id := "c1", attributes := [],
         relationships := some [("author",
           { data := some (.one { type := "user", id := "u1" }),
             links := some { related := "https://api/c1/author",
                             self := "https://api/c1/relationships/author" } })] },
     included := some [{ type := "user", id := "u1", attributes := [], relationships := none }] },
   { data := .res
       { type := "comment", id := "c2", attributes := [],
         relationships := some [("author",
           { data := some (.one { type := "user", id := "u1" }),
             links := some { related := "https://api/c2/author",
                             self := "https://api/c2/relationships/author" } })] },
     included := some [{ type := "user", id := "u1", attributes := [], relationships := none }] }]

/-! ## General lemmas about the embedded definitions -/

/-- A wrapped singleton payload has no key besides the singular type name. -/
theorem getProp_wrap_ne (type k : String) (e : JVal) (h : k ≠ type) :
    getProp (.vobj [(type, e)]) k = .vnull := by
  simp only [getProp, List.find?]
  have hbe : (type == k) = false := by
    simp only [beq_eq_false_iff_ne, ne_eq]
    exact fun hh => h hh.symm
  simp [hbe]

/-- When the pluralized type name differs from the singular one, a wrapped
singleton payload is never classified as a collection. -/
theorem isCollectionResponse_wrap (pl : String → String) (type : String) (e : JVal)
    (h : pl type ≠ type) :
    isCollectionResponse pl [type] (.vobj [(type, e)]) = false := by
  simp [isCollectionResponse, getProp_wrap_ne type (pl type) e h, truthy]

/-- The single-resource branch does not consume fuel: on a payload that is
not classified as a collection, the result is independent of the fuel. -/
theorem normalizeResourceRecursive_base_fuel (serializeFn : SerializeFn)
    (pl : String → String) (doc : JVal) (type : String) (rels : List String)
    (hasRel : Bool) (url : String) (tmap : List (String × String))
    (h : isCollectionResponse pl [type] doc = false) (n : Nat) :
    normalizeResourceRecursive serializeFn pl (n + 1) doc type rels hasRel url tmap =
    normalizeResourceRecursive serializeFn pl 1 doc type rels hasRel url tmap := by
  simp [normalizeResourceRecursive, h]

/-- Congruence for `mapExcept` under pointwise-equal callbacks. -/
theorem mapExcept_congr {α β : Type} (f g : α → Except String β) (l : List α)
    (h : ∀ a ∈ l, f a = g a) : mapExcept f l = mapExcept g l := by
  induction l with
  | nil => rfl
  | cons a as ih =>
    simp only [mapExcept, h a (List.mem_cons_self a as),
      ih (fun x hx => h x (List.mem_cons_of_mem a hx))]

/-- Writing back the value found at a key leaves the field list unchanged. -/
theorem setFields_self (fields : List (String × JVal)) (k : String) (p : String × JVal)
    (h : fields.find? (fun q => q.1 == k) = some p) : setFields fields k p.2 = fields := by
  induction fields with
  | nil => simp [List.find?] at h
  | cons q rest ih =>
    obtain ⟨k1, v1⟩ := q
    cases hq : (k1 == k) with
    | true =>
      have hk : k1 = k := beq_iff_eq.mp hq
      simp only [List.find?, hq] at h
      cases h
      simp [setFields, hq, hk]
    | false =>
      simp only [List.find?, hq] at h
      simp [setFields, hq, ih h]

/-- Writing back the (truthy) value read at a key is a no-op. -/
theorem setProp_getProp_self (res : JVal) (k : String)
    (h : truthy (getProp res k) = true) : setProp res k (getProp res k) = res := by
  cases res with
  | vobj fields =>
    simp only [getProp] at h ⊢
    cases hf : fields.find? (fun q => q.1 == k) with
    | none => simp [hf, truthy] at h
    | some p =>
      simp only [hf, setProp]
      rw [setFields_self fields k p hf]
  | vstr s => simp [getProp, truthy] at h
  | vnum n => simp [getProp, truthy] at h
  | vbool b => simp [getProp, truthy] at h
  | vnull => simp [getProp, truthy] at h
  | varr es => simp [getProp, truthy] at h

/-- A left fold whose step leaves the accumulator unchanged on every list
element returns the initial accumulator. -/
theorem foldl_const_of_step_id {A B : Type} (f : A → B → A) (init : A) (l : List B)
    (h : ∀ b ∈ l, f init b = init) : List.foldl f init l = init := by
  induction l with
  | nil => rfl
  | cons b bs ih =>
    rw [List.foldl_cons, h b (List.mem_cons_self b bs)]
    exact ih (fun x hx => h x (List.mem_cons_of_mem b hx))

/-! ## Claim theorems -/

/-- C1: `isCollectionResponse` is documented (in its own JSDoc and in the
spec) to be true iff the pluralized key holds an array, and the claim says a
payload whose pluralized key holds a non-array value is routed to the
single-resource branch.  The code instead tests only truthiness: on the
payload `{ articles: { id: '1' } }` it returns `true`, routes the payload to
the collection branch, and the whole normalization then throws a `TypeError`
calling `.map` on the non-array value — it is never routed to the
single-resource branch. -/
theorem c1_isCollectionResponse_truthy_not_array :
    isCollectionResponse pluralizeModel ["article"]
      (.vobj [("articles", .vobj [("id", .vstr "1")])]) = true
    ∧ normalizeResource serializeModel pluralizeModel 5
        (.vobj [("articles", .vobj [("id", .vstr "1")])])
        { schema := appSchema, url := "https://api" } [] =
      .error "TypeError: document[pluralType].map is not a function" :=
  ⟨rfl, rfl⟩

/-- C2 counterexample: for the zero-element collection `{ comments: [] }` of
a type with relationships, the normalized result has `included` equal to the
empty array `some []`, not `undefined` (`none`) as the claim states: the
empty-array normalization of `mapTypes` is applied only in the
single-resource branch, never to the collection branch's aggregated
`included`. -/
theorem c2_empty_collection_included_not_undefined :
    normalizeResourceRecursive serializeModel pluralizeModel 2
      (.vobj [("comments", .varr [])]) "comment" ["author"] true "https://api" [] =
      .ok { data := .coll [], included := some [] }
    ∧ some ([] : List ResourceObject) ≠ none :=
  ⟨rfl, by simp⟩

/-- C2 amended: for every collection payload with zero elements of a type
with relationships, `data` is the empty array and `included` is the empty
array (`some []`), not `undefined`: the collection branch builds `included`
by flat-mapping the (empty) list of sub-results and `mapTypes` never touches
it. -/
theorem c2_empty_collection_included_empty (serializeFn : SerializeFn)
    (pl : String → String) (doc : JVal) (type url : String) (rels : List String)
    (tmap : List (String × String)) (fuel : Nat)
    (h : getProp doc (pl type) = .varr []) :
    normalizeResourceRecursive serializeFn pl (fuel + 1) doc type rels true url tmap =
      .ok { data := .coll [], included := some [] } := by
  have hc : isCollectionResponse pl [type] doc = true := by
    simp [isCollectionResponse, h, truthy]
  simp [normalizeResourceRecursive, hc, h, mapExcept]

/-- C2 witness: the amended statement at the concrete input `{ comments: [] }`. -/
theorem c2_empty_collection_witness :
    normalizeResourceRecursive serializeModel pluralizeModel 1
      (.vobj [("comments", .varr [])]) "comment" ["author"] true "https://api" [] =
      .ok { data := .coll [], included := some [] } :=
  c2_empty_collection_included_empty serializeModel pluralizeModel
    (.vobj [("comments", .varr [])]) "comment" "https://api" ["author"] [] 0 rfl

/-- C3: normalizing a single resource applies the caller-supplied
relationship type map to the serializer's fragment: (i) the result is
exactly the serializer fragment with links added and `mapTypes` applied to
its `relationships` and `included`; (ii) every relationship entry whose name
is mapped (to a canonical, hence nonempty, type name) has the type of every
linkage under its `data` — singular or array — forced to the mapped type;
(iii) relationship entries whose names are absent from the map pass through
unchanged; (iv) every included entry whose type is mapped is rewritten to
the mapped type; (v) included entries whose types are absent from the map
pass through unchanged. -/
theorem c3_relationship_type_map_forcing (serializeFn : SerializeFn)
    (pl : String → String) (doc : JVal) (type url : String) (rels : List String)
    (tmap : List (String × String)) (base : SerFragment)
    (hser : serializeResource serializeFn (getProp doc type) type rels true = .ok base)
    (hcoll : isCollectionResponse pl [type] doc = false) :
    normalizeResourceRecursive serializeFn pl 1 doc type rels true url tmap =
      .ok { data := .res { base.data with
              relationships := mapTypesRels
                (addJsonApiLinks base.data.relationships url base.data.id) tmap },
            included := mapTypesIncluded base.included tmap }
    ∧ (∀ (entries : List (String × RelationshipObj)) relName targetType rel d,
        jsLookup tmap relName = some targetType → targetType ≠ "" →
        (relName, rel) ∈ entries → rel.data = some d →
          (relName, { rel with data := some (forceRelTypes d targetType) }) ∈
              entries.map (mapTypesRelStep tmap)
          ∧ ∀ ref ∈ refsOf (forceRelTypes d targetType), ref.type = targetType)
    ∧ (∀ (entries : List (String × RelationshipObj)) relName rel,
        jsLookup tmap relName = none → (relName, rel) ∈ entries →
        (relName, rel) ∈ entries.map (mapTypesRelStep tmap))
    ∧ (∀ (items : List ResourceObject) item targetType, items ≠ [] →
        jsLookup tmap item.type = some targetType → targetType ≠ "" → item ∈ items →
        ∃ out, mapTypesIncluded (some items) tmap = some out ∧
          { item with type := targetType } ∈ out)
    ∧ (∀ (items : List ResourceObject) item, items ≠ [] →
        jsLookup tmap item.type = none → item ∈ items →
        ∃ out, mapTypesIncluded (some items) tmap = some out ∧ item ∈ out) := by
  refine ⟨?_, ?_, ?_, ?_, ?_⟩
  · simp [normalizeResourceRecursive, hcoll, hser]
  · intro entries relName targetType rel d hfind hne hmem hdata
    constructor
    · have hstep : mapTypesRelStep tmap (relName, rel) =
          (relName, { rel with data := some (forceRelTypes d targetType) }) := by
        simp [mapTypesRelStep, hfind, hne, hdata]
      exact hstep ▸ List.mem_map_of_mem (mapTypesRelStep tmap) hmem
    · intro ref href
      cases d with
      | one r => simp [forceRelTypes, refsOf] at href; simp [href]
      | many rs =>
        simp [forceRelTypes, refsOf] at href
        obtain ⟨r, _, hr⟩ := href
        simp [← hr]
  · intro entries relName rel hfind hmem
    have hstep : mapTypesRelStep tmap (relName, rel) = (relName, rel) := by
      simp [mapTypesRelStep, hfind]
    exact hstep ▸ List.mem_map_of_mem (mapTypesRelStep tmap) hmem
  · intro items item targetType hne hfind htne hmem
    refine ⟨items.map (fun it =>
      { it with type := jsOrString (jsLookup tmap it.type) it.type }), ?_, ?_⟩
    · simp [mapTypesIncluded, hne]
    · have hstep : { item with type := jsOrString (jsLookup tmap item.type) item.type } =
          { item with type := targetType } := by
        simp [hfind, jsOrString, htne]
      exact hstep ▸ List.mem_map_of_mem _ hmem
  · intro items item hne hfind hmem
    refine ⟨items.map (fun it =>
      { it with type := jsOrString (jsLookup tmap it.type) it.type }), ?_, ?_⟩
    · simp [mapTypesIncluded, hne]
    · have hstep : { item with type := jsOrString (jsLookup tmap item.type) item.type } = item := by
        simp [hfind, jsOrString]
      exact hstep ▸ List.mem_map_of_mem _ hmem

/-- C3 witness: the spec §8 example — normalizing
`{ article: { title: 'X', author: { username: 'jd' } } }` with the map
`{ author: 'user' }` forces the relationship linkage and the included entry
to type `user`. -/
theorem c3_relationship_type_map_witness :
    normalizeResourceRecursive serializeModel pluralizeModel 1 c3Doc "article"
      ["author"] true "https://api" [("author", "user")] =
      .ok { data := .res
              { type := "article", id := "undefined",
                attributes := [("title", .vstr "X")],
                relationships := some [("author",
                  { data := some (.one { type := "user", id := "jd" }),
                    links := some { related := "https://api/undefined/author",
                                    self := "https://api/undefined/relationships/author" } })] },
            included := some [{ type := "user", id := "jd",
                                attributes := [("username", .vstr "jd")],
                                relationships := none }] } := by
  have h := c3_relationship_type_map_forcing serializeModel pluralizeModel c3Doc
    "article" "https://api" ["author"] [("author", "user")] c3Base rfl rfl
  exact h.1

/-- C4 counterexample: the claim says the attribute property name is the
first name in the preference order `[name, title, label, text, value]` that
occurs among the declared fields; for a schema declaring `title` before
`name` that would be `name`.  The code instead scans the declared fields in
declaration order for the first whose name is in the preference set, and so
picks `title`. -/
theorem c4_property_name_declaration_order :
    normalizeResourceData pluralizeModel (.vobj [("things", .varr [.vstr "a"])])
        "thing" (some c4Schema) =
      .vobj [("things", .varr [.vobj [("id", .vstr "a"), ("title", .vstr "a")]])]
    ∧ normalizeResourceData pluralizeModel (.vobj [("things", .varr [.vstr "a"])])
        "thing" (some c4Schema) ≠
      .vobj [("things", .varr [.vobj [("id", .vstr "a"), ("name", .vstr "a")]])] := by
  have h1 : normalizeResourceData pluralizeModel (.vobj [("things", .varr [.vstr "a"])])
      "thing" (some c4Schema) =
      .vobj [("things", .varr [.vobj [("id", .vstr "a"), ("title", .vstr "a")]])] := rfl
  refine ⟨h1, fun h => ?_⟩
  rw [h1] at h
  simp at h

/-- C4 amended: when the pluralized array contains a primitive, each element
becomes `{ id: String(element), [propertyName]: element }`, where
`propertyName` is the name of the first declared field — in schema
declaration order — of kind `field` whose name is one of
`[name, title, label, text, value]`, and defaults to `value` when the schema
is absent, the lookup fails, or no declared field's name is in that set. -/
theorem c4_property_name_first_declared_field (pl : String → String) (data : JVal)
    (type : String) (schema : Option Schema) (arr : List JVal)
    (harr : getProp data (pl type) = .varr arr)
    (hprim : arr.any isPrimitive = true) :
    normalizeResourceData pl data type schema =
      setProp data (pl type) (.varr (arr.map (fun item =>
        .vobj [("id", .vstr (jsToString item)), (pickPropertyName schema type, item)])))
    ∧ (∀ sch fields, schema = some sch → sch.fields type = some fields →
        pickPropertyName schema type =
          ((fields.find? (fun field => field.kind == "field" &&
              ["name", "title", "label", "text", "value"].contains field.name)).map
            (fun field => field.name)).getD "value")
    ∧ (∀ sch, schema = some sch → sch.fields type = none →
        pickPropertyName schema type = "value")
    ∧ (schema = none → pickPropertyName schema type = "value") := by
  refine ⟨?_, ?_, ?_, ?_⟩
  · simp [normalizeResourceData, harr, hprim]
  · intro sch fields hsch hfields
    subst hsch
    simp only [pickPropertyName, hfields]
    cases fields.find? (fun field => field.kind == "field" &&
        ["name", "title", "label", "text", "value"].contains field.name) with
    | none => rfl
    | some f => rfl
  · intro sch hsch hfields
    subst hsch
    simp [pickPropertyName, hfields]
  · intro hsch
    subst hsch
    rfl

/-- C4 witness: the amended statement at the `c4Schema` input, where the
first declared matching field is `title`. -/
theorem c4_property_name_witness :
    normalizeResourceData pluralizeModel (.vobj [("things", .varr [.vstr "a", .vnum 2])])
        "thing" (some c4Schema) =
      setProp (.vobj [("things", .varr [.vstr "a", .vnum 2])]) (pluralizeModel "thing")
        (.varr ([JVal.vstr "a", JVal.vnum 2].map (fun item =>
          .vobj [("id", .vstr (jsToString item)),
                 (pickPropertyName (some c4Schema) "thing", item)]))) :=
  (c4_property_name_first_declared_field pluralizeModel
    (.vobj [("things", .varr [.vstr "a", .vnum 2])]) "thing" (some c4Schema)
    [JVal.vstr "a", JVal.vnum 2] rfl rfl).1

/-- C5: the identifier resolver returns the string form of a primitive
resource, and for object resources returns the first field among
`id`, `slug`, `username`, `name` (in that priority order) holding a truthy
value — in particular an object lacking `id` but possessing a `slug`
resolves to the slug value. -/
theorem c5_resolveId_priority (v w : JVal) (fields : List (String × JVal))
    (hv : isPrimitive v = true) (hw : w = .vobj fields) :
    extractResourceId v = .ok (.vstr (jsToString v))
    ∧ (truthy (getProp w "id") = true → extractResourceId w = .ok (getProp w "id"))
    ∧ (truthy (getProp w "id") = false → truthy (getProp w "slug") = true →
        extractResourceId w = .ok (getProp w "slug"))
    ∧ (truthy (getProp w "id") = false → truthy (getProp w "slug") = false →
        truthy (getProp w "username") = true →
        extractResourceId w = .ok (getProp w "username"))
    ∧ (truthy (getProp w "id") = false → truthy (getProp w "slug") = false →
        truthy (getProp w "username") = false →
        extractResourceId w = .ok (getProp w "name")) := by
  subst hw
  refine ⟨?_, ?_, ?_, ?_, ?_⟩
  · simp [extractResourceId, hv]
  · intro h1
    simp [extractResourceId, isPrimitive, jsOr, h1]
  · intro h1 h2
    simp [extractResourceId, isPrimitive, jsOr, h1, h2]
  · intro h1 h2 h3
    simp [extractResourceId, isPrimitive, jsOr, h1, h2, h3]
  · intro h1 h2 h3
    simp [extractResourceId, isPrimitive, jsOr, h1, h2, h3]

/-- C5 witness: the resolver at a primitive and at an object having only a
`slug`. -/
theorem c5_resolveId_witness :
    extractResourceId (.vnum 7) = .ok (.vstr "7")
    ∧ extractResourceId (.vobj [("slug", .vstr "my-post")]) = .ok (.vstr "my-post") := by
  have h := c5_resolveId_priority (.vnum 7) (.vobj [("slug", .vstr "my-post")])
    [("slug", .vstr "my-post")] rfl rfl
  exact ⟨h.1, h.2.2.1 rfl rfl⟩

/-- C6: when the schema field lookup throws, `getSchemaRelationships`
returns the empty list and no failure is surfaced: the single resource is
still normalized (the result is `ok`), and its fragment carries no
`relationships` key and no `included` array. -/
theorem c6_schema_failopen (schema : Schema) (pl : String → String) (doc : JVal)
    (type url : String) (tmap : List (String × String)) (fields : List (String × JVal))
    (hfail : schema.fields type = none)
    (hres : getProp doc type = .vobj fields)
    (hcoll : isCollectionResponse pl [type] doc = false) :
    getSchemaRelationships schema type = []
    ∧ ∃ robj, normalizeResourceRecursive serializeModel pl 1 doc type
        (getSchemaRelationships schema type) false url tmap =
          .ok { data := .res robj, included := none }
        ∧ robj.relationships = none ∧ robj.type = type := by
  have h0 : getSchemaRelationships schema type = [] := by
    simp [getSchemaRelationships, hfail]
  refine ⟨h0, ?_⟩
  rw [h0]
  refine ⟨(serializeModel (.vobj (setFields (spreadFields (getProp doc type)) "id"
    (jsOr (getProp (getProp doc type) "id") (jsOr (getProp (getProp doc type) "slug")
      (jsOr (getProp (getProp doc type) "username")
        (getProp (getProp doc type) "name")))))) type none false).data, ?_, ?_, ?_⟩
  · simp [normalizeResourceRecursive, hcoll, serializeResource, extractResourceId,
      hres, isPrimitive, serializeModel]
  · simp [serializeModel]
  · simp [serializeModel]

/-- C6 witness: normalizing `{ widget: { name: 'w' } }` when every schema
lookup throws. -/
theorem c6_schema_failopen_witness :
    getSchemaRelationships c6Schema "widget" = []
    ∧ ∃ robj, normalizeResourceRecursive serializeModel pluralizeModel 1
        (.vobj [("widget", .vobj [("name", .vstr "w")])]) "widget"
        (getSchemaRelationships c6Schema "widget") false "https://api" [] =
          .ok { data := .res robj, included := none }
        ∧ robj.relationships = none ∧ robj.type = "widget" :=
  c6_schema_failopen c6Schema pluralizeModel
    (.vobj [("widget", .vobj [("name", .vstr "w")])]) "widget" "https://api" []
    [("name", .vstr "w")] rfl rfl rfl

/-- One-step unfolding of `normalizeResourceRecursive` at successor fuel. -/
theorem normalizeResourceRecursive_succ (serializeFn : SerializeFn)
    (pl : String → String) (fuel : Nat) (document : JVal) (type : String)
    (rels : List String) (hasRel : Bool) (url : String)
    (tmap : List (String × String)) :
    normalizeResourceRecursive serializeFn pl (fuel + 1) document type rels hasRel url tmap =
    (if isCollectionResponse pl [type] document then
      match getProp document (pl type) with
      | .varr items =>
        (match mapExcept (fun resource =>
            normalizeResourceRecursive serializeFn pl fuel (.vobj [(type, resource)]) type
              rels hasRel url tmap) items with
        | .error e => .error e
        | .ok resources =>
          .ok { data := .coll (resources.map (fun r => r.data)),
                included := if hasRel then
                    some (List.flatten (resources.map (fun r => r.included.getD [])))
                  else none })
      | _ => .error "TypeError: document[pluralType].map is not a function"
    else
      match serializeResource serializeFn (getProp document type) type rels hasRel with
      | .error e => .error e
      | .ok result =>
        if hasRel then
          .ok { data := .res { result.data with
                  relationships := mapTypesRels
                    (addJsonApiLinks result.data.relationships url result.data.id) tmap },
                included := mapTypesIncluded result.included tmap }
        else .ok { data := .res result.data, included := result.included }) := rfl

/-- Evaluation of the collection branch when the pluralized key holds an
array. -/
theorem normalizeResourceRecursive_coll (serializeFn : SerializeFn)
    (pl : String → String) (fuel : Nat) (doc : JVal) (type : String)
    (rels : List String) (hasRel : Bool) (url : String)
    (tmap : List (String × String)) (elems : List JVal)
    (harr : getProp doc (pl type) = .varr elems) :
    normalizeResourceRecursive serializeFn pl (fuel + 1) doc type rels hasRel url tmap =
    (match mapExcept (fun resource =>
        normalizeResourceRecursive serializeFn pl fuel (.vobj [(type, resource)]) type
          rels hasRel url tmap) elems with
    | .error e => .error e
    | .ok resources =>
      .ok { data := .coll (resources.map (fun r => r.data)),
            included := if hasRel then
                some (List.flatten (resources.map (fun r => r.included.getD [])))
              else none }) := by
  have hc : isCollectionResponse pl [type] doc = true := by
    simp [isCollectionResponse, harr, truthy]
  rw [normalizeResourceRecursive_succ, if_pos hc]
  simp only [harr]

/-- When the pluralized type name differs from the singular one, every
result of the recursion is already stable at fuel 2: the recursion never
needs more than one nested level. -/
theorem normalizeResourceRecursive_fuel_stable (serializeFn : SerializeFn)
    (pl : String → String) (type : String) (hpl : pl type ≠ type)
    (rels : List String) (hasRel : Bool) (url : String)
    (tmap : List (String × String)) (n : Nat) (doc : JVal) :
    normalizeResourceRecursive serializeFn pl (n + 2) doc type rels hasRel url tmap =
    normalizeResourceRecursive serializeFn pl 2 doc type rels hasRel url tmap := by
  cases hc : isCollectionResponse pl [type] doc with
  | false =>
    rw [normalizeResourceRecursive_base_fuel serializeFn pl doc type rels hasRel url tmap hc (n + 1),
      normalizeResourceRecursive_base_fuel serializeFn pl doc type rels hasRel url tmap hc 1]
  | true =>
    cases hgp : getProp doc (pl type) with
    | varr items =>
      rw [normalizeResourceRecursive_coll serializeFn pl (n + 1) doc type rels hasRel url tmap items hgp,
        normalizeResourceRecursive_coll serializeFn pl 1 doc type rels hasRel url tmap items hgp,
        mapExcept_congr
          (fun resource => normalizeResourceRecursive serializeFn pl (n + 1)
            (.vobj [(type, resource)]) type rels hasRel url tmap)
          (fun resource => normalizeResourceRecursive serializeFn pl 1
            (.vobj [(type, resource)]) type rels hasRel url tmap)
          items
          (fun e _ => normalizeResourceRecursive_base_fuel serializeFn pl (.vobj [(type, e)])
            type rels hasRel url tmap (isCollectionResponse_wrap pl type e hpl) n)]
    | vstr s =>
      rw [normalizeResourceRecursive_succ serializeFn pl (n + 1) doc type rels hasRel url tmap,
        normalizeResourceRecursive_succ serializeFn pl 1 doc type rels hasRel url tmap,
        if_pos hc, if_pos hc]
      simp only [hgp]
    | vnum m =>
      rw [normalizeResourceRecursive_succ serializeFn pl (n + 1) doc type rels hasRel url tmap,
        normalizeResourceRecursive_succ serializeFn pl 1 doc type rels hasRel url tmap,
        if_pos hc, if_pos hc]
      simp only [hgp]
    | vbool b =>
      rw [normalizeResourceRecursive_succ serializeFn pl (n + 1) doc type rels hasRel url tmap,
        normalizeResourceRecursive_succ serializeFn pl 1 doc type rels hasRel url tmap,
        if_pos hc, if_pos hc]
      simp only [hgp]
    | vnull =>
      rw [normalizeResourceRecursive_succ serializeFn pl (n + 1) doc type rels hasRel url tmap,
        normalizeResourceRecursive_succ serializeFn pl 1 doc type rels hasRel url tmap,
        if_pos hc, if_pos hc]
      simp only [hgp]
    | vobj fs =>
      rw [normalizeResourceRecursive_succ serializeFn pl (n + 1) doc type rels hasRel url tmap,
        normalizeResourceRecursive_succ serializeFn pl 1 doc type rels hasRel url tmap,
        if_pos hc, if_pos hc]
      simp only [hgp]

/-- C7: for a collection payload, the normalized `data` is the ordered array
of the results of normalizing each element — each element wrapped as
`{ [type]: element }` and sent through `normalizeResourceRecursive` itself,
the exact single-resource path used for top-level singletons — and, when the
type has relationships, `included` is the flattened concatenation of each
element's `included` (absent ones contributing `[]`), with no
deduplication. -/
theorem c7_collection_elementwise (serializeFn : SerializeFn) (pl : String → String)
    (fuel : Nat) (doc : JVal) (type url : String) (rels : List String) (hasRel : Bool)
    (tmap : List (String × String)) (elems : List JVal) (subResults : List NormResult)
    (harr : getProp doc (pl type) = .varr elems)
    (_hne : elems ≠ [])
    (hpl : pl type ≠ type)
    (hsub : mapExcept (fun e => normalizeResourceRecursive serializeFn pl 1
        (.vobj [(type, e)]) type rels hasRel url tmap) elems = .ok subResults) :
    normalizeResourceRecursive serializeFn pl (fuel + 2) doc type rels hasRel url tmap =
      .ok { data := .coll (subResults.map (fun r => r.data)),
            included := if hasRel then
                some (List.flatten (subResults.map (fun r => r.included.getD [])))
              else none } := by
  have hcong : mapExcept (fun resource => normalizeResourceRecursive serializeFn pl (fuel + 1)
      (.vobj [(type, resource)]) type rels hasRel url tmap) elems = .ok subResults := by
    rw [mapExcept_congr _ (fun resource => normalizeResourceRecursive serializeFn pl 1
        (.vobj [(type, resource)]) type rels hasRel url tmap) elems
      (fun e _ => normalizeResourceRecursive_base_fuel serializeFn pl (.vobj [(type, e)])
        type rels hasRel url tmap (isCollectionResponse_wrap pl type e hpl) fuel)]
    exact hsub
  rw [normalizeResourceRecursive_coll serializeFn pl (fuel + 1) doc type rels hasRel url tmap elems harr,
    hcong]

/-- C7 witness: the two-comment collection; the shared author appears twice
in `included` (no deduplication). -/
theorem c7_collection_elementwise_witness :
    normalizeResourceRecursive serializeModel pluralizeModel 2
      (.vobj [("comments", .varr c7Elems)]) "comment" ["author"] true "https://api"
      [("author", "user")] =
      .ok { data := .coll (c7Sub.map (fun r => r.data)),
            included := if true then
                some (List.flatten (c7Sub.map (fun r => r.included.getD [])))
              else none } :=
  c7_collection_elementwise serializeModel pluralizeModel 0
    (.vobj [("comments", .varr c7Elems)]) "comment" "https://api" ["author"] true
    [("author", "user")] c7Elems c7Sub rfl (by simp [c7Elems]) (by decide) rfl

/-- C8: primitive coercion and relationship id back-fill are idempotent:
re-applying `normalizeResourceData` to a payload whose pluralized array
contains only (already coerced) objects leaves the payload unchanged, and
re-running `ensureRelationshipIds` on a resource whose relationship objects
all carry (truthy) ids leaves the resource unchanged. -/
theorem c8_idempotent (pl : String → String) (data : JVal) (type : String)
    (schema : Option Schema) (arr : List JVal) (resource : JVal) (rels : List String)
    (harr : getProp data (pl type) = .varr arr)
    (hobj : ∀ e ∈ arr, isObject e = true)
    (hids : ∀ relName ∈ rels, ∀ item : JVal,
        (item = getProp resource relName ∨
          (∃ items, getProp resource relName = .varr items ∧ item ∈ items)) →
        isObject item = true → truthy (getProp item "id") = true) :
    normalizeResourceData pl data type schema = data
    ∧ ensureRelationshipIds resource rels = resource := by
  constructor
  · have hnp : arr.any isPrimitive = false := by
      rw [List.any_eq_false]
      intro e he
      have := hobj e he
      cases e <;> simp_all [isObject, isPrimitive]
    simp [normalizeResourceData, harr, hnp]
  · unfold ensureRelationshipIds
    apply foldl_const_of_step_id
    intro relName hmem
    simp only []
    cases htr : truthy (getProp resource relName) with
    | false => simp [htr]
    | true =>
      simp only [htr, Bool.not_true, Bool.false_eq_true, if_false]
      have hback : ∀ item : JVal,
          (item = getProp resource relName ∨
            (∃ items, getProp resource relName = .varr items ∧ item ∈ items)) →
          backfillItem item = item := by
        intro item hitem
        by_cases hio : isObject item = true
        · have := hids relName hmem item hitem hio
          simp [backfillItem, hio, this]
        · simp [backfillItem, Bool.and_eq_true]
          intro hio2
          exact absurd hio2 hio
      cases hgp : getProp resource relName with
      | varr items =>
        show setProp resource relName (.varr (items.map backfillItem)) = resource
        have hmap : items.map backfillItem = items :=
          (List.map_congr_left (fun item hmem2 =>
            hback item (Or.inr ⟨items, hgp, hmem2⟩))).trans (List.map_id items)
        rw [hmap, ← hgp]
        exact setProp_getProp_self resource relName htr
      | vobj fs =>
        show setProp resource relName (backfillItem (.vobj fs)) = resource
        rw [hback (.vobj fs) (Or.inl hgp.symm), ← hgp]
        exact setProp_getProp_self resource relName htr
      | vstr s =>
        show setProp resource relName (backfillItem (.vstr s)) = resource
        rw [hback (.vstr s) (Or.inl hgp.symm), ← hgp]
        exact setProp_getProp_self resource relName htr
      | vnum m =>
        show setProp resource relName (backfillItem (.vnum m)) = resource
        rw [hback (.vnum m) (Or.inl hgp.symm), ← hgp]
        exact setProp_getProp_self resource relName htr
      | vbool b =>
        show setProp resource relName (backfillItem (.vbool b)) = resource
        rw [hback (.vbool b) (Or.inl hgp.symm), ← hgp]
        exact setProp_getProp_self resource relName htr
      | vnull =>
        show setProp resource relName (backfillItem .vnull) = resource
        rw [hback .vnull (Or.inl hgp.symm), ← hgp]
        exact setProp_getProp_self resource relName htr

/-- C8 witness: re-running coercion on an already coerced `{ tags: [...] }`
payload, and the back-fill on a resource whose `author` already carries an
id, leaves both unchanged. -/
theorem c8_idempotent_witness :
    normalizeResourceData pluralizeModel
        (.vobj [("tags", .varr [.vobj [("id", .vstr "a"), ("name", .vstr "a")]])]) "tag" none =
      .vobj [("tags", .varr [.vobj [("id", .vstr "a"), ("name", .vstr "a")]])]
    ∧ ensureRelationshipIds (.vobj [("author", .vobj [("id", .vstr "jd")])]) ["author"] =
      .vobj [("author", .vobj [("id", .vstr "jd")])] := by
  have h := c8_idempotent pluralizeModel
    (.vobj [("tags", .varr [.vobj [("id", .vstr "a"), ("name", .vstr "a")]])]) "tag" none
    [.vobj [("id", .vstr "a"), ("name", .vstr "a")]]
    (.vobj [("author", .vobj [("id", .vstr "jd")])]) ["author"]
    rfl
    (by
      intro e he
      rw [List.mem_singleton] at he
      subst he
      rfl)
    (by
      intro relName hrel item hitem hio
      rw [List.mem_singleton] at hrel
      subst hrel
      rcases hitem with heq | ⟨items, heq, hmem⟩
      · subst heq; rfl
      · have hne : JVal.vobj [("id", JVal.vstr "jd")] = JVal.varr items := heq
        simp at hne)
  exact h

/-- C9: for every type name in the repository's registry (`article`, `user`,
`profile`, `tag`), the pluralized key differs from the singular one, so the
wrapped singleton `{ [type]: element }` built by the collection branch is
never re-classified as a collection: every per-element recursive call takes
the single-resource branch and the recursion is stable at (terminates
within) one nested level — its result at any fuel of at least 2 equals its
result at fuel 2. -/
theorem c9_depth_one (type : String) (htype : type ∈ appSchema.knownTypes) :
    pluralizeModel type ≠ type
    ∧ (∀ e : JVal, isCollectionResponse pluralizeModel [type] (.vobj [(type, e)]) = false)
    ∧ (∀ (serializeFn : SerializeFn) (rels : List String) (hasRel : Bool) (url : String)
        (tmap : List (String × String)) (fuel : Nat) (doc : JVal),
        normalizeResourceRecursive serializeFn pluralizeModel (fuel + 2) doc type rels hasRel url tmap =
        normalizeResourceRecursive serializeFn pluralizeModel 2 doc type rels hasRel url tmap) := by
  have hpl : pluralizeModel type ≠ type := by
    fin_cases htype <;> decide
  exact ⟨hpl, fun e => isCollectionResponse_wrap pluralizeModel type e hpl,
    fun serializeFn rels hasRel url tmap fuel doc =>
      normalizeResourceRecursive_fuel_stable serializeFn pluralizeModel type hpl
        rels hasRel url tmap fuel doc⟩

/-- C9 witness: the registry type `article`. -/
theorem c9_depth_one_witness :
    pluralizeModel "article" ≠ "article"
    ∧ (∀ e : JVal, isCollectionResponse pluralizeModel ["article"] (.vobj [("article", e)]) = false)
    ∧ (∀ (serializeFn : SerializeFn) (rels : List String) (hasRel : Bool) (url : String)
        (tmap : List (String × String)) (fuel : Nat) (doc : JVal),
        normalizeResourceRecursive serializeFn pluralizeModel (fuel + 2) doc "article" rels hasRel url tmap =
        normalizeResourceRecursive serializeFn pluralizeModel 2 doc "article" rels hasRel url tmap) :=
  c9_depth_one "article" (by decide)

/-- C10 (implicit): when the pluralized array mixes at least one primitive
with object elements, coercion replaces every element of the array —
including the objects — with `{ id: String(element), [propertyName]:
element }`, so an object element's `id` is the string rendering
`"[object Object]"` rather than an identifier derived from its fields. -/
theorem c10_mixed_array_coercion (pl : String → String) (data : JVal) (type : String)
    (schema : Option Schema) (arr : List JVal)
    (harr : getProp data (pl type) = .varr arr)
    (hprim : arr.any isPrimitive = true)
    (_hobj : ∃ o ∈ arr, isObject o = true) :
    normalizeResourceData pl data type schema =
      setProp data (pl type) (.varr (arr.map (fun item =>
        .vobj [("id", .vstr (jsToString item)), (pickPropertyName schema type, item)])))
    ∧ ∀ fields : List (String × JVal), JVal.vobj fields ∈ arr →
        jsToString (.vobj fields) = "[object Object]" := by
  refine ⟨?_, ?_⟩
  · simp [normalizeResourceData, harr, hprim]
  · intro fields hmem
    rfl

/-- C10 witness: the mixed array `[ 'a', { x: 1 } ]` under `{ tags: ... }`. -/
theorem c10_mixed_array_coercion_witness :
    normalizeResourceData pluralizeModel
        (.vobj [("tags", .varr [.vstr "a", .vobj [("x", .vnum 1)]])]) "tag" none =
      setProp (.vobj [("tags", .varr [.vstr "a", .vobj [("x", .vnum 1)]])]) (pluralizeModel "tag")
        (.varr ([JVal.vstr "a", JVal.vobj [("x", JVal.vnum 1)]].map (fun item =>
          .vobj [("id", .vstr (jsToString item)), (pickPropertyName none "tag", item)])))
    ∧ jsToString (JVal.vobj [("x", JVal.vnum 1)]) = "[object Object]" := by
  have h := c10_mixed_array_coercion pluralizeModel
    (.vobj [("tags", .varr [.vstr "a", .vobj [("x", .vnum 1)]])]) "tag" none
    [JVal.vstr "a", JVal.vobj [("x", JVal.vnum 1)]] rfl rfl
    ⟨.vobj [("x", .vnum 1)], List.mem_cons_of_mem _ (List.mem_singleton.mpr rfl), rfl⟩
  exact ⟨h.1, h.2 [("x", JVal.vnum 1)]
    (List.mem_cons_of_mem _ (List.mem_singleton.mpr rfl))⟩

end WarpDrive


